import Mathlib

/-!
Shallow embedding of the coordinated multi-view visualization core of the
547-vis-project dashboard:

* the chunk-fingerprint aggregator (`fingerprints` in
  `src/components/visualizations/DocumentUsageChart.tsx`),
* the coordination controller (`OverviewDashboard`, second document of
  `src/components/DeepDiveLauncher.tsx` / `src/unnamed/part_001`):
  `handleBrushSelection`, `handleBinClick`, `filteredData`,
  `scoreHighlightIds`,
* the histogram binning / bin-click emission
  (`src/components/visualizations/DistributionHistograms.tsx`),
* the scatterplot brush (`src/unnamed/part_003`), and
* the fingerprint segment-width computation
  (`DocumentUsageChart.tsx` lines 361-366).

JavaScript numbers are modelled as exact rationals `ℚ`; none of the claims
settled here depends on floating-point rounding.  JavaScript `Map`s are
modelled as insertion-ordered association lists, JavaScript `Set`s as
insertion-ordered duplicate-free lists.  Because the standard `ℚ` arithmetic
operations of Mathlib do not reduce inside the kernel, the executable
definitions use the wrappers `qAdd`, `qMul`, `qSub`, `qOfNat` below, each
proved equal to the corresponding standard operation (`qAdd_eq` etc.), so
that concrete runs of the embedded code can be checked by `decide`.
-/

/-- Kernel-computable addition on `ℚ` (JS `+` on numbers). -/
def qAdd (a b : ℚ) : ℚ := mkRat (a.num * b.den + b.num * a.den) (a.den * b.den)

/-- Kernel-computable multiplication on `ℚ` (JS `*` on numbers). -/
def qMul (a b : ℚ) : ℚ := mkRat (a.num * b.num) (a.den * b.den)

/-- Kernel-computable negation on `ℚ`. -/
def qNeg (a : ℚ) : ℚ := mkRat (-a.num) a.den

/-- Kernel-computable subtraction on `ℚ` (JS `-` on numbers). -/
def qSub (a b : ℚ) : ℚ := qAdd a (qNeg b)

/-- Kernel-computable embedding of a count into `ℚ`. -/
def qOfNat (n : ℕ) : ℚ := mkRat n 1

theorem qAdd_eq (a b : ℚ) : qAdd a b = a + b := by
  rw [qAdd, Rat.mkRat_eq_divInt]
  push_cast
  rw [← Rat.divInt_add_divInt _ _ (by exact_mod_cast a.den_nz) (by exact_mod_cast b.den_nz),
    Rat.num_divInt_den, Rat.num_divInt_den]

theorem qMul_eq (a b : ℚ) : qMul a b = a * b := by
  rw [qMul, Rat.mkRat_eq_divInt]
  push_cast
  rw [← Rat.divInt_mul_divInt' a.num (a.den : ℤ) b.num (b.den : ℤ),
    Rat.num_divInt_den, Rat.num_divInt_den]

theorem qNeg_eq (a : ℚ) : qNeg a = -a := by
  rw [qNeg, Rat.mkRat_eq_divInt]
  rw [← Rat.neg_divInt, Rat.num_divInt_den]

theorem qSub_eq (a b : ℚ) : qSub a b = a - b := by
  rw [qSub, qAdd_eq, qNeg_eq, sub_eq_add_neg]

theorem qOfNat_eq (n : ℕ) : qOfNat n = n := by
  simp [qOfNat]

/-! ## Data model (`VizDataPoint`, `src/app/api/viz/overview/route.ts`) -/

/-- One element of `VizDataPoint.retrievedDocs`:
`{ title, score, index?, text?, chunkId? }`. -/
structure RetrievedDoc where
  title : String
  score : ℚ
  index : Option ℤ := none
  text : Option String := none
  chunkId : Option String := none
  deriving DecidableEq, Repr

/-- The normalized per-run record every view consumes. -/
structure VizDataPoint where
  runId : String
  questionId : String
  questionText : String := ""
  timestamp : String := ""
  llmScore : ℚ
  avgSimilarity : ℚ := 0
  humanFlags : ℕ
  configModel : String := ""
  configTopK : ℕ := 0
  retrievedDocs : List RetrievedDoc
  deriving DecidableEq, Repr

/-- A runtime-permissive point, used to study how the aggregator behaves when
fields the TypeScript type promises are absent at runtime (`undefined`).
`none` plays the role of `undefined`. -/
structure RawVizPoint where
  runId : String
  questionId : String
  llmScore : Option ℚ
  avgSimilarity : Option ℚ := none
  humanFlags : Option ℕ
  retrievedDocs : Option (List RetrievedDoc)
  deriving DecidableEq, Repr

/-! ## JS collection primitives

`sInsert` is `Set.prototype.add` on an insertion-ordered duplicate-free list;
`mapGet`/`mapSet` are `Map.prototype.get`/`set` on an insertion-ordered
association list (`set` on an existing key updates the value in place). -/

/-- JS `Set.prototype.add`. -/
def sInsert (s : List String) (x : String) : List String :=
  if x ∈ s then s else s ++ [x]

/-- JS `Map.prototype.get` (`undefined` becomes `none`). -/
def mapGet {α : Type} (m : List (String × α)) (k : String) : Option α :=
  (m.find? (fun e => e.1 == k)).map (fun e => e.2)

/-- JS `Map.prototype.set`: update the value at an existing key in place,
otherwise append the new binding. -/
def mapSet {α : Type} (m : List (String × α)) (k : String) (v : α) :
    List (String × α) :=
  if (m.find? (fun e => e.1 == k)).isSome then
    m.map (fun e => if e.1 == k then (k, v) else e)
  else m ++ [(k, v)]

/-- Stable insertion used by `jsSortBy`. -/
def jsInsert {α : Type} (le : α → α → Bool) (x : α) : List α → List α
  | [] => [x]
  | y :: ys => if le x y then x :: y :: ys else y :: jsInsert le x ys

/-- Stable sort standing for `Array.prototype.sort(cmp)`; `le a b` means
`cmp(a,b) <= 0`, i.e. `a` may stay before `b`. -/
def jsSortBy {α : Type} (le : α → α → Bool) : List α → List α
  | [] => []
  | x :: xs => jsInsert le x (jsSortBy le xs)

/-! ## Chunk fingerprint aggregator
(`fingerprints` memo in `DocumentUsageChart.tsx`, lines 100-212) -/

/-- `POOR_THRESHOLD = 0.4` (`DocumentUsageChart.tsx` line 8). -/
def POOR_THRESHOLD : ℚ := mkRat 2 5

/-- `MIN_SEGMENT_WIDTH = 6` (`DocumentUsageChart.tsx` line 9). -/
def MIN_SEGMENT_WIDTH : ℚ := 6

/-- `const flagged = point.humanFlags > 0` (line 114). -/
def pointFlagged (p : VizDataPoint) : Bool := decide (p.humanFlags > 0)

/-- `const poorLLM = point.llmScore < POOR_THRESHOLD && !flagged` (line 115). -/
def pointPoorLLM (p : VizDataPoint) : Bool :=
  decide (p.llmScore < POOR_THRESHOLD) && !pointFlagged p

/-- `const title = doc.title || "Untitled"` (line 118): in JS the empty string
is falsy. -/
def docTitleOrUntitled (d : RetrievedDoc) : String :=
  if d.title = "" then "Untitled" else d.title

/-- `const chunkIndex = doc.index ?? 0` (line 119). -/
def chunkIndexOrZero (d : RetrievedDoc) : ℤ := d.index.getD 0

/-- The chunk bucket key (line 120):
``const key = `${title}-${chunkIndex}-${doc.chunkId ?? ""}` ``. -/
def chunkKeyOf (d : RetrievedDoc) : String :=
  docTitleOrUntitled d ++ "-" ++ toString (chunkIndexOrZero d) ++ "-" ++
    d.chunkId.getD ""

/-- The per-chunk accumulator (`ChunkAggregateInternal`). -/
structure ChunkAggregateInternal where
  key : String
  index : ℤ
  text : String
  chunkId : Option String
  occurrences : ℕ
  flags : ℕ
  poor : ℕ
  questionIds : List String
  runIds : List String
  deriving DecidableEq, Repr

/-- The published per-chunk aggregate (`ChunkAggregate`). -/
structure ChunkAggregate where
  key : String
  index : ℤ
  text : String
  chunkId : Option String
  occurrences : ℕ
  flags : ℕ
  poor : ℕ
  questions : ℕ
  runs : ℕ
  severity : ℚ
  runIds : List String
  deriving DecidableEq, Repr

/-- The published per-document aggregate (`DocumentFingerprint`). -/
structure DocumentFingerprint where
  title : String
  severity : ℚ
  humanFlags : ℕ
  poorLLM : ℕ
  totalRetrievals : ℕ
  chunkCount : ℤ
  chunks : List ChunkAggregate
  deriving DecidableEq, Repr

/-- The anonymous per-document accumulator object held in `docMap`
(lines 101-111). -/
structure DocEntry where
  title : String
  chunkMap : List (String × ChunkAggregateInternal)
  flaggedQuestions : List String
  poorQuestions : List String
  retrievalCount : ℕ
  maxIndex : ℤ
  deriving DecidableEq, Repr

/-- The fresh document bucket created on first sight of a title
(lines 123-131). -/
def freshDocEntry (title : String) : DocEntry :=
  { title := title, chunkMap := [], flaggedQuestions := [], poorQuestions := [],
    retrievalCount := 0, maxIndex := -1 }

/-- The fresh chunk bucket created on first sight of a key (lines 139-150). -/
def freshChunk (key : String) (chunkIndex : ℤ) (d : RetrievedDoc) :
    ChunkAggregateInternal :=
  { key := key, index := chunkIndex, text := d.text.getD "", chunkId := d.chunkId,
    occurrences := 0, flags := 0, poor := 0, questionIds := [], runIds := [] }

/-- Body of the inner `point.retrievedDocs.forEach((doc) => ...)`
(lines 117-159), for one retrieved doc of one point whose derived booleans
and ids are given. -/
def processDoc (flagged poorLLM : Bool) (questionId runId : String)
    (docMap : List (String × DocEntry)) (d : RetrievedDoc) :
    List (String × DocEntry) :=
  let title := docTitleOrUntitled d
  let chunkIndex := chunkIndexOrZero d
  let key := chunkKeyOf d
  let docEntry := (mapGet docMap title).getD (freshDocEntry title)
  let docEntry :=
    { docEntry with
      retrievalCount := docEntry.retrievalCount + 1
      maxIndex := max docEntry.maxIndex chunkIndex
      flaggedQuestions :=
        if flagged then sInsert docEntry.flaggedQuestions questionId
        else docEntry.flaggedQuestions
      poorQuestions :=
        if poorLLM then sInsert docEntry.poorQuestions questionId
        else docEntry.poorQuestions }
  let c := (mapGet docEntry.chunkMap key).getD (freshChunk key chunkIndex d)
  let c :=
    { c with
      occurrences := c.occurrences + 1
      flags := if flagged then c.flags + 1 else c.flags
      poor := if poorLLM then c.poor + 1 else c.poor
      questionIds := sInsert c.questionIds questionId
      runIds := sInsert c.runIds runId }
  mapSet docMap title { docEntry with chunkMap := mapSet docEntry.chunkMap key c }

/-- Body of `data.forEach((point) => ...)` (lines 113-160). -/
def processPoint (docMap : List (String × DocEntry)) (p : VizDataPoint) :
    List (String × DocEntry) :=
  p.retrievedDocs.foldl
    (processDoc (pointFlagged p) (pointPoorLLM p) p.questionId p.runId) docMap

/-- The fully accumulated `docMap` after the outer `forEach`. -/
def buildDocMap (data : List VizDataPoint) : List (String × DocEntry) :=
  data.foldl processPoint []

/-- The four sort modes of the fingerprint view. -/
inductive SortKey
  | severity
  | flags
  | poor
  | retrieved
  deriving DecidableEq, Repr

/-- Publication of one chunk bucket (lines 165-177):
`severity = chunk.flags * severityWeight + chunk.poor`. -/
def toChunkAggregate (severityWeight : ℚ) (c : ChunkAggregateInternal) :
    ChunkAggregate :=
  { key := c.key, index := c.index, text := c.text, chunkId := c.chunkId,
    occurrences := c.occurrences, flags := c.flags, poor := c.poor,
    questions := c.questionIds.length, runs := c.runIds.length,
    severity := qAdd (qMul (qOfNat c.flags) severityWeight) (qOfNat c.poor),
    runIds := c.runIds }

/-- Publication of one document bucket (lines 163-194): chunks sorted
ascending by index, `chunkCount = maxIndex >= 0 ? maxIndex + 1 :
max(chunks.length, 1)`, `severity = humanFlags * severityWeight + poorLLM`. -/
def finalizeDoc (severityWeight : ℚ) (e : DocEntry) : DocumentFingerprint :=
  let chunks :=
    jsSortBy (fun a b => decide (a.index ≤ b.index))
      ((e.chunkMap.map (fun kc => kc.2)).map (toChunkAggregate severityWeight))
  let chunkCount : ℤ :=
    if e.maxIndex ≥ 0 then e.maxIndex + 1 else max (chunks.length : ℤ) 1
  let humanFlags := e.flaggedQuestions.length
  let poorLLM := e.poorQuestions.length
  { title := e.title,
    severity := qAdd (qMul (qOfNat humanFlags) severityWeight) (qOfNat poorLLM),
    humanFlags := humanFlags, poorLLM := poorLLM,
    totalRetrievals := e.retrievalCount, chunkCount := chunkCount,
    chunks := chunks }

/-- The document comparator (lines 195-211), returned as the JS comparator
number (negative keeps `a` before `b`). -/
def docCmp (sortBy : SortKey) (a b : DocumentFingerprint) : ℚ :=
  match sortBy with
  | .flags =>
    if b.humanFlags ≠ a.humanFlags then
      qSub (qOfNat b.humanFlags) (qOfNat a.humanFlags)
    else qSub (qOfNat b.totalRetrievals) (qOfNat a.totalRetrievals)
  | .poor =>
    if b.poorLLM ≠ a.poorLLM then qSub (qOfNat b.poorLLM) (qOfNat a.poorLLM)
    else qSub (qOfNat b.totalRetrievals) (qOfNat a.totalRetrievals)
  | .retrieved =>
    if b.totalRetrievals ≠ a.totalRetrievals then
      qSub (qOfNat b.totalRetrievals) (qOfNat a.totalRetrievals)
    else qSub b.severity a.severity
  | .severity =>
    if b.severity ≠ a.severity then qSub b.severity a.severity
    else if b.humanFlags ≠ a.humanFlags then
      qSub (qOfNat b.humanFlags) (qOfNat a.humanFlags)
    else qSub (qOfNat b.totalRetrievals) (qOfNat a.totalRetrievals)

/-- Shared publication step: `Array.from(docMap.values()).map(...).sort(...)`. -/
def finalizeAll (severityWeight : ℚ) (sortBy : SortKey)
    (docMap : List (String × DocEntry)) : List DocumentFingerprint :=
  jsSortBy (fun a b => decide (docCmp sortBy a b ≤ 0))
    ((docMap.map (fun te => te.2)).map (finalizeDoc severityWeight))

/-- The `fingerprints` computation of `DocumentUsageChart.tsx`
(the `computeFingerprints` of the spec). -/
def fingerprints (data : List VizDataPoint) (severityWeight : ℚ)
    (sortBy : SortKey) : List DocumentFingerprint :=
  finalizeAll severityWeight sortBy (buildDocMap data)

/-! ### The aggregator on runtime-permissive points

JS semantics of the same code when fields are `undefined`:
`undefined > 0` and `undefined < 0.4` are both `false`, and
`undefined.forEach` throws a `TypeError`. -/

/-- `point.humanFlags > 0` when `humanFlags` may be `undefined`. -/
def rawFlagged (p : RawVizPoint) : Bool :=
  match p.humanFlags with
  | some n => decide (n > 0)
  | none => false

/-- `point.llmScore < POOR_THRESHOLD && !flagged` when `llmScore` may be
`undefined`. -/
def rawPoorLLM (p : RawVizPoint) : Bool :=
  (match p.llmScore with
   | some s => decide (s < POOR_THRESHOLD)
   | none => false) && !rawFlagged p

/-- One step of the outer `forEach` on a runtime-permissive point:
`point.retrievedDocs.forEach` throws when `retrievedDocs` is absent. -/
def processRawPoint (docMap : List (String × DocEntry)) (p : RawVizPoint) :
    Except String (List (String × DocEntry)) :=
  match p.retrievedDocs with
  | none => .error "TypeError: point.retrievedDocs is undefined"
  | some docs =>
    .ok (docs.foldl
      (processDoc (rawFlagged p) (rawPoorLLM p) p.questionId p.runId) docMap)

/-- The `fingerprints` computation run on runtime-permissive points. -/
def rawFingerprints (pts : List RawVizPoint) (severityWeight : ℚ)
    (sortBy : SortKey) : Except String (List DocumentFingerprint) :=
  (pts.foldlM processRawPoint ([] : List (String × DocEntry))).map
    (finalizeAll severityWeight sortBy)

/-! ## Coordination controller
(`OverviewDashboard`, second document of `DeepDiveLauncher.tsx`) -/

/-- The two score metrics. -/
inductive Metric
  | llm
  | similarity
  deriving DecidableEq, Repr

/-- The global interaction mode. -/
inductive ViewMode
  | highlight
  | filter
  deriving DecidableEq, Repr

/-- `scoreFilter` state: `{ metric, range }`. -/
structure ScoreFilter where
  metric : Metric
  range : ℚ × ℚ
  deriving DecidableEq, Repr

/-- `selectedChunk` state: `{ key, docTitle, chunkIndex }`. -/
structure ChunkSelection where
  key : String
  docTitle : String
  chunkIndex : ℤ
  deriving DecidableEq, Repr

/-- The controller's shared state (the `useState` cells of
`OverviewDashboard`). -/
structure OverviewState where
  selectedRunIds : List String
  selectedChunk : Option ChunkSelection
  viewMode : ViewMode
  sortBy : SortKey
  severityWeight : ℚ
  scoreFilter : Option ScoreFilter
  deriving DecidableEq, Repr

/-- `handleBrushSelection` (lines 201-204):
`setSelectedRunIds(ids); setSelectedChunk(null);`. -/
def handleBrushSelection (s : OverviewState) (ids : List String) :
    OverviewState :=
  { s with selectedRunIds := ids, selectedChunk := none }

/-- `handleBinClick` (lines 206-209):
`setScoreFilter({metric, range}); setSelectedChunk(null);`. -/
def handleBinClick (s : OverviewState) (metric : Metric) (range : ℚ × ℚ) :
    OverviewState :=
  { s with scoreFilter := some ⟨metric, range⟩, selectedChunk := none }

/-- The score predicate as it appears inside `filteredData` (lines 172-176). -/
def scorePredFilter (f : ScoreFilter) (d : VizDataPoint) : Bool :=
  let value :=
    match f.metric with
    | .llm => d.llmScore
    | .similarity => d.avgSimilarity
  let upperInclusive :=
    if f.range.2 ≥ 1 then decide (value ≤ f.range.2)
    else decide (value < f.range.2)
  decide (value ≥ f.range.1) && upperInclusive

/-- `filteredData` (lines 162-179). -/
def filteredData (data : List VizDataPoint) (selectedRunIds : List String)
    (scoreFilter : Option ScoreFilter) (viewMode : ViewMode) :
    List VizDataPoint :=
  match viewMode with
  | .highlight => data
  | .filter =>
    let result :=
      if selectedRunIds.length > 0 then
        data.filter (fun d => selectedRunIds.contains d.runId)
      else data
    match scoreFilter with
    | some f => result.filter (scorePredFilter f)
    | none => result

/-- The score predicate as it appears inside `scoreHighlightIds`
(lines 185-187), transcribed independently of `scorePredFilter`. -/
def scorePredHighlight (f : ScoreFilter) (d : VizDataPoint) : Bool :=
  let value :=
    match f.metric with
    | .llm => d.llmScore
    | .similarity => d.avgSimilarity
  let upperInclusive :=
    if f.range.2 ≥ 1 then decide (value ≤ f.range.2)
    else decide (value < f.range.2)
  decide (value ≥ f.range.1) && upperInclusive

/-- The `forEach`/`Set.add` accumulation inside `scoreHighlightIds`
(lines 183-191). -/
def collectScoreHighlightIds (data : List VizDataPoint) (f : ScoreFilter) :
    List String :=
  data.foldl
    (fun ids d => if scorePredHighlight f d then sInsert ids d.runId else ids) []

/-- `scoreHighlightIds` (lines 181-192): `null` when no filter is active. -/
def scoreHighlightIds (data : List VizDataPoint)
    (scoreFilter : Option ScoreFilter) : Option (List String) :=
  match scoreFilter with
  | none => none
  | some f => some (collectScoreHighlightIds data f)

/-- The metric value of a point, as selected by
`scoreFilter.metric === "llm" ? d.llmScore : d.avgSimilarity`. -/
def metricValue (m : Metric) (d : VizDataPoint) : ℚ :=
  match m with
  | .llm => d.llmScore
  | .similarity => d.avgSimilarity

/-! ## Scatterplot brush (`src/unnamed/part_003`, lines 164-184) -/

/-- `d3.scaleLinear().domain([0, d1]).range([0, r1])`. -/
def xScaleLin (d1 r1 v : ℚ) : ℚ := v / d1 * r1

/-- `d3.scaleLinear().domain([0, 1]).range([height, 0])`. -/
def yScaleFlip (height v : ℚ) : ℚ := height - v * height

/-- The run ids emitted at brush end: `null` selection emits the empty set,
otherwise the ids of all points whose scaled coordinates fall inside the
rectangle with closed bounds. -/
def brushEndIds (width height : ℚ) (data : List VizDataPoint)
    (selection : Option ((ℚ × ℚ) × (ℚ × ℚ))) : List String :=
  match selection with
  | none => []
  | some ((x0, y0), (x1, y1)) =>
    data.foldl
      (fun ids d =>
        let x := xScaleLin 1 width d.llmScore
        let y := yScaleFlip height d.avgSimilarity
        if decide (x0 ≤ x) && decide (x ≤ x1) && decide (y0 ≤ y) &&
            decide (y ≤ y1) then
          sInsert ids d.runId
        else ids) []

/-! ## Histogram bins (`DistributionHistograms.tsx`) -/

/-- `d3.range(0, 1.1, 0.1)` with exact rationals: `[0, 0.1, ..., 1.0]`. -/
def histThresholds : List ℚ := (List.range 11).map (fun i => mkRat i 10)

/-- The bins produced by `d3.bin().domain([0,1]).thresholds(histThresholds)`:
thresholds at or below the domain minimum and above the domain maximum are
dropped, and the remaining `m` thresholds cut `[0,1]` into `m + 1` bins
(the last one degenerate, `[1,1]`). -/
def histBins : List (ℚ × ℚ) :=
  let tz := histThresholds.filter (fun t => decide (0 < t) && decide (t ≤ 1))
  ((0 : ℚ) :: tz).zip (tz ++ [1])

/-- The range emitted by a bin click (line 207):
`onBinClick(metric, [d.x0 || 0, d.x1 || 1])` (JS `||`: `0` is falsy). -/
def binClickRange (bin : ℚ × ℚ) : ℚ × ℚ :=
  (if bin.1 = 0 then 0 else bin.1, if bin.2 = 0 then 1 else bin.2)

/-! ## Fingerprint segment geometry (`DocumentUsageChart.tsx` lines 318,
361-366) -/

/-- `const x = xScale(chunk.index)` with
`xScale = d3.scaleLinear().domain([0, chunkCount]).range([0, barWidth])`. -/
def segmentX (barWidth chunkCount index : ℚ) : ℚ :=
  xScaleLin chunkCount barWidth index

/-- The rendered segment width (lines 363-366):
`Math.min(Math.max(xScale(index+1) - xScale(index), MIN_SEGMENT_WIDTH),
barWidth - x)`. -/
def segmentWidth (barWidth chunkCount index : ℚ) : ℚ :=
  min
    (max (xScaleLin chunkCount barWidth (index + 1) -
      segmentX barWidth chunkCount index) MIN_SEGMENT_WIDTH)
    (barWidth - segmentX barWidth chunkCount index)

/-! ## Generic lemmas about the JS collection primitives -/

theorem mem_sInsert {s : List String} {x y : String} :
    y ∈ sInsert s x ↔ y ∈ s ∨ y = x := by
  unfold sInsert
  split_ifs with h
  · constructor
    · exact fun h' => Or.inl h'
    · rintro (h' | rfl)
      · exact h'
      · exact h
  · simp

theorem mem_jsInsert {α : Type} (le : α → α → Bool) (x a : α) (l : List α) :
    a ∈ jsInsert le x l ↔ a ∈ l ∨ a = x := by
  induction l with
  | nil => simp [jsInsert]
  | cons y ys ih =>
    unfold jsInsert
    split_ifs with h
    · simp
      tauto
    · simp [ih]
      tauto

theorem mem_jsSortBy {α : Type} (le : α → α → Bool) (a : α) (l : List α) :
    a ∈ jsSortBy le l ↔ a ∈ l := by
  induction l with
  | nil => simp [jsSortBy]
  | cons x xs ih =>
    unfold jsSortBy
    rw [mem_jsInsert]
    simp [ih]
    tauto

theorem mapGet_nil {α : Type} (k : String) : mapGet ([] : List (String × α)) k = none := rfl

theorem mapGet_cons {α : Type} (e : String × α) (es : List (String × α)) (k : String) :
    mapGet (e :: es) k = if e.1 == k then some e.2 else mapGet es k := by
  simp only [mapGet, List.find?_cons]
  split <;> rename_i h <;> simp [h]

theorem mapSet_nil {α : Type} (k : String) (v : α) :
    mapSet ([] : List (String × α)) k v = [(k, v)] := by
  simp [mapSet]

theorem mapSet_cons {α : Type} (e : String × α) (es : List (String × α))
    (k : String) (v : α) :
    mapSet (e :: es) k v =
      if e.1 == k then
        (k, v) :: es.map (fun e => if e.1 == k then (k, v) else e)
      else e :: mapSet es k v := by
  by_cases he : (e.1 == k) = true
  · have hf : List.find? (fun x => x.1 == k) (e :: es) = some e :=
      List.find?_cons_of_pos _ he
    simp only [mapSet, hf, Option.isSome_some, if_pos, List.map_cons, he, if_true]
  · have hf : List.find? (fun x => x.1 == k) (e :: es) =
        List.find? (fun x => x.1 == k) es :=
      List.find?_cons_of_neg _ he
    simp only [mapSet, hf, he, Bool.false_eq_true, if_false, List.map_cons, if_neg]
    split_ifs with h2
    · simp only [List.map_cons, he, Bool.false_eq_true, if_false, List.cons.injEq,
        true_and, if_neg]
    · simp

theorem mapGet_map_replace {α : Type} (es : List (String × α)) (k k' : String)
    (v : α) (h : k' ≠ k) :
    mapGet (es.map (fun e => if e.1 == k then (k, v) else e)) k' = mapGet es k' := by
  induction es with
  | nil => rfl
  | cons e es ih =>
    by_cases he : (e.1 == k) = true
    · have he' : e.1 = k := by simpa using he
      have h1 : (k == k') = false := beq_eq_false_iff_ne.mpr (fun hh => h hh.symm)
      have h2 : (e.1 == k') = false :=
        beq_eq_false_iff_ne.mpr (fun hh => h (he' ▸ hh).symm)
      rw [List.map_cons, mapGet_cons, mapGet_cons]
      simp only [he, if_pos, h1, h2, Bool.false_eq_true, if_false, ih]
    · rw [List.map_cons, mapGet_cons, mapGet_cons]
      simp only [he, Bool.false_eq_true, if_false, ih]

theorem mapGet_mapSet_self {α : Type} (m : List (String × α)) (k : String) (v : α) :
    mapGet (mapSet m k v) k = some v := by
  induction m with
  | nil => simp [mapSet_nil, mapGet_cons]
  | cons e es ih =>
    rw [mapSet_cons]
    by_cases he : (e.1 == k) = true
    · rw [if_pos he, mapGet_cons]
      simp
    · simp only [he, Bool.false_eq_true, if_false, mapGet_cons, ih]

theorem mapGet_mapSet_ne {α : Type} (m : List (String × α)) (k k' : String)
    (v : α) (h : k' ≠ k) :
    mapGet (mapSet m k v) k' = mapGet m k' := by
  have h1 : (k == k') = false := beq_eq_false_iff_ne.mpr (fun hh => h hh.symm)
  induction m with
  | nil => simp [mapSet_nil, mapGet_cons, h1]
  | cons e es ih =>
    rw [mapSet_cons]
    by_cases he : (e.1 == k) = true
    · have he' : e.1 = k := by simpa using he
      have h2 : (e.1 == k') = false :=
        beq_eq_false_iff_ne.mpr (fun hh => h (he' ▸ hh).symm)
      rw [if_pos he, mapGet_cons, mapGet_cons]
      simp only [h1, h2, Bool.false_eq_true, if_false,
        mapGet_map_replace _ _ _ _ h]
    · simp only [he, Bool.false_eq_true, if_false, mapGet_cons, ih]

theorem mem_mapSet {α : Type} {m : List (String × α)} {k : String} {v : α}
    {a : String × α} (h : a ∈ mapSet m k v) : a = (k, v) ∨ a ∈ m := by
  induction m with
  | nil =>
    rw [mapSet_nil] at h
    simp at h
    simp [h]
  | cons e es ih =>
    rw [mapSet_cons] at h
    by_cases he : (e.1 == k) = true
    · simp only [he, if_pos] at h
      rcases List.mem_cons.mp h with h1 | h1
      · exact Or.inl h1
      · rcases List.mem_map.mp h1 with ⟨e', he', hfe⟩
        by_cases hk : (e'.1 == k) = true
        · simp only [hk, if_pos] at hfe
          exact Or.inl hfe.symm
        · simp only [hk, Bool.false_eq_true, if_false] at hfe
          exact Or.inr (List.mem_cons_of_mem _ (hfe ▸ he'))
    · simp only [he, Bool.false_eq_true, if_false] at h
      rcases List.mem_cons.mp h with h1 | h1
      · exact Or.inr (h1 ▸ List.mem_cons_self _ _)
      · rcases ih h1 with h2 | h2
        · exact Or.inl h2
        · exact Or.inr (List.mem_cons_of_mem _ h2)

theorem mem_of_mapGet_eq_some {α : Type} {m : List (String × α)} {k : String}
    {v : α} (h : mapGet m k = some v) : (k, v) ∈ m := by
  induction m with
  | nil => simp [mapGet_nil] at h
  | cons e es ih =>
    rw [mapGet_cons] at h
    by_cases he : (e.1 == k) = true
    · have he' : e.1 = k := by simpa using he
      simp only [he, if_pos, Option.some.injEq] at h
      have hkv : (k, v) = e := by rw [← he', ← h]
      rw [hkv]
      exact List.mem_cons_self _ _
    · simp only [he, Bool.false_eq_true, if_false] at h
      exact List.mem_cons_of_mem _ (ih h)

/-! ## Controller state transitions (claims C3 and C8) -/

/-- A controller state with a prior region selection and a prior chunk
selection. -/
def stateA : OverviewState :=
  { selectedRunIds := ["r1"], selectedChunk := some ⟨"DocA-0-", "DocA", 0⟩,
    viewMode := .highlight, sortBy := .severity, severityWeight := 10,
    scoreFilter := none }

/-- A controller state in which every kind of selection is active. -/
def stateB : OverviewState :=
  { selectedRunIds := ["r1", "r2"], selectedChunk := some ⟨"DocA-0-", "DocA", 0⟩,
    viewMode := .highlight, sortBy := .severity, severityWeight := 10,
    scoreFilter := some ⟨.llm, (mkRat 1 5, mkRat 3 10)⟩ }

/-- C3 (counterexample): a histogram bin click does NOT clear
`selectedRunIds` — from the prior state `stateA` with `selectedRunIds =
["r1"]`, clicking a bin leaves `selectedRunIds = ["r1"]`, not empty. -/
theorem binClick_keeps_selectedRunIds_cx :
    (handleBinClick stateA .llm (mkRat 7 10, mkRat 4 5)).selectedRunIds = ["r1"] ∧
    (["r1"] : List String) ≠ [] := ⟨rfl, by decide⟩

/-- C3 (amended): a histogram bin click replaces `activeScoreFilter` with the
clicked bin's `{metric, range}` and clears `activeChunkSelection`, but leaves
`selectedRunIds` (and every other state component) unchanged. -/
theorem binClick_state_transition (s : OverviewState) (metric : Metric)
    (range : ℚ × ℚ) :
    (handleBinClick s metric range).selectedRunIds = s.selectedRunIds ∧
    (handleBinClick s metric range).scoreFilter = some ⟨metric, range⟩ ∧
    (handleBinClick s metric range).selectedChunk = none ∧
    (handleBinClick s metric range).viewMode = s.viewMode ∧
    (handleBinClick s metric range).sortBy = s.sortBy ∧
    (handleBinClick s metric range).severityWeight = s.severityWeight :=
  ⟨rfl, rfl, rfl, rfl, rfl, rfl⟩

/-- C8 (counterexample): an empty region selection (no brush rectangle) does
NOT leave `activeChunkSelection` unchanged — from `stateB`, whose chunk
selection is set, it is cleared to `none`. -/
theorem empty_region_clears_chunk_selection_cx :
    (handleBrushSelection stateB (brushEndIds 800 460 [] none)).selectedChunk
      = none ∧
    stateB.selectedChunk = some ⟨"DocA-0-", "DocA", 0⟩ ∧
    some (ChunkSelection.mk "DocA-0-" "DocA" 0) ≠ (none : Option ChunkSelection) :=
  ⟨rfl, rfl, by decide⟩

/-- C8 (amended): an empty region selection clears `selectedRunIds` AND
clears `activeChunkSelection`, while `activeScoreFilter` (and every other
state component) is unchanged. -/
theorem empty_region_select_transition (s : OverviewState) (width height : ℚ)
    (data : List VizDataPoint) :
    (handleBrushSelection s (brushEndIds width height data none)).selectedRunIds
      = [] ∧
    (handleBrushSelection s (brushEndIds width height data none)).selectedChunk
      = none ∧
    (handleBrushSelection s (brushEndIds width height data none)).scoreFilter
      = s.scoreFilter ∧
    (handleBrushSelection s (brushEndIds width height data none)).viewMode
      = s.viewMode ∧
    (handleBrushSelection s (brushEndIds width height data none)).sortBy
      = s.sortBy ∧
    (handleBrushSelection s (brushEndIds width height data none)).severityWeight
      = s.severityWeight :=
  ⟨rfl, rfl, rfl, rfl, rfl, rfl⟩

/-! ## Highlight / filter score-predicate equivalence (claim C5) -/

theorem mem_collect_aux (f : ScoreFilter) (data : List VizDataPoint) :
    ∀ (acc : List String) (id : String),
      (id ∈ data.foldl
        (fun ids d => if scorePredHighlight f d then sInsert ids d.runId else ids)
        acc ↔
      id ∈ acc ∨ ∃ d ∈ data, scorePredHighlight f d = true ∧ d.runId = id) := by
  induction data with
  | nil => intro acc id; simp
  | cons d ds ih =>
    intro acc id
    rw [List.foldl_cons, ih]
    by_cases hp : scorePredHighlight f d = true
    · simp only [hp, if_pos, mem_sInsert, List.exists_mem_cons_iff]
      tauto
    · simp only [hp, if_neg, Bool.false_eq_true, List.exists_mem_cons_iff]
      tauto

/-- C5: a point passes the score predicate of the filter-mode path
(`filteredData`) iff it passes the score predicate of the highlight-mode path
(`scoreHighlightIds`), and consequently the set of run ids matching an active
score filter is the same along both paths. -/
theorem score_filter_highlight_equivalence :
    (∀ (f : ScoreFilter) (d : VizDataPoint),
      scorePredFilter f d = scorePredHighlight f d) ∧
    (∀ (data : List VizDataPoint) (f : ScoreFilter) (id : String),
      id ∈ collectScoreHighlightIds data f ↔
      id ∈ (data.filter (scorePredFilter f)).map VizDataPoint.runId) := by
  constructor
  · intro f d
    rfl
  · intro data f id
    rw [collectScoreHighlightIds, mem_collect_aux]
    simp only [List.not_mem_nil, false_or, List.mem_map, List.mem_filter]
    constructor
    · rintro ⟨d, hd, hp, hid⟩
      exact ⟨d, ⟨hd, hp⟩, hid⟩
    · rintro ⟨d, ⟨hd, hp⟩, hid⟩
      exact ⟨d, hd, hp, hid⟩

/-- Input for the C5 witness. -/
def c5data : List VizDataPoint :=
  [{ runId := "r1", questionId := "q1", llmScore := mkRat 1 2, humanFlags := 0,
     retrievedDocs := [] }]

/-- Score filter for the C5 witness. -/
def c5filter : ScoreFilter := ⟨.llm, (mkRat 2 5, mkRat 3 5)⟩

theorem score_filter_highlight_equivalence_witness :
    "r1" ∈ (c5data.filter (scorePredFilter c5filter)).map VizDataPoint.runId :=
  (score_filter_highlight_equivalence.2 c5data c5filter "r1").mp (by decide)

/-! ## Histogram bin-click boundary semantics (claim C6) -/

/-- The value-level core shared by `scorePredFilter` and
`scorePredHighlight`: whether a metric value matches a score-filter range. -/
def scoreValPred (range : ℚ × ℚ) (value : ℚ) : Bool :=
  decide (value ≥ range.1) &&
    (if range.2 ≥ 1 then decide (value ≤ range.2) else decide (value < range.2))

theorem scorePredHighlight_eq (m : Metric) (range : ℚ × ℚ) (d : VizDataPoint) :
    scorePredHighlight ⟨m, range⟩ d = scoreValPred range (metricValue m d) := by
  cases m <;> rfl

/-- C6: clicking a histogram bin emits exactly the bin's `[binStart, binEnd)`
pair; the matching predicate treats the upper bound as inclusive for the top
visible bin (upper bound `1`), so a metric value of exactly `1` matches the
top bin's emitted filter, while for every bin whose upper bound is below `1`
a value exactly equal to the upper bound does not match. -/
theorem histogram_bin_click_boundary :
    (∀ b ∈ histBins, binClickRange b = b) ∧
    (∀ (m : Metric) (d : VizDataPoint), metricValue m d = 1 →
      scorePredHighlight ⟨m, binClickRange (mkRat 9 10, 1)⟩ d = true) ∧
    (∀ b ∈ histBins, b.2 < 1 → ∀ (m : Metric) (d : VizDataPoint),
      metricValue m d = b.2 → scorePredHighlight ⟨m, binClickRange b⟩ d = false) := by
  refine ⟨by decide, ?_, ?_⟩
  · intro m d hv
    rw [scorePredHighlight_eq, hv]
    decide
  · intro b hb hlt m d hv
    rw [scorePredHighlight_eq, hv]
    exact (by decide :
      ∀ b ∈ histBins, b.2 < 1 → scoreValPred (binClickRange b) b.2 = false) b hb hlt

/-- A point whose llm score is exactly `1.0`. -/
def pointScore1 : VizDataPoint :=
  { runId := "r1", questionId := "q1", llmScore := 1, humanFlags := 0,
    retrievedDocs := [] }

/-- A point whose llm score is exactly `0.8`. -/
def pointScore08 : VizDataPoint :=
  { runId := "r2", questionId := "q2", llmScore := mkRat 4 5, humanFlags := 0,
    retrievedDocs := [] }

theorem histogram_bin_click_boundary_witness :
    binClickRange (mkRat 7 10, mkRat 4 5) = (mkRat 7 10, mkRat 4 5) ∧
    scorePredHighlight ⟨.llm, binClickRange (mkRat 9 10, 1)⟩ pointScore1 = true ∧
    scorePredHighlight ⟨.llm, binClickRange (mkRat 7 10, mkRat 4 5)⟩ pointScore08
      = false :=
  ⟨histogram_bin_click_boundary.1 _ (by decide),
   histogram_bin_click_boundary.2.1 .llm pointScore1 (by decide),
   histogram_bin_click_boundary.2.2 (mkRat 7 10, mkRat 4 5) (by decide)
     (by decide) .llm pointScore08 (by decide)⟩

/-! ## Fingerprint segment width (claim C7) -/

/-- C7 (counterexample): the rendered segment width is NOT monotonically
non-increasing in `chunkCount`: at `barWidth = 240` and chunk index `59`, the
width is `4` for `chunkCount = 60` but `6` for `chunkCount = 61`. -/
theorem segment_width_not_monotone_cx :
    segmentWidth 240 60 59 = 4 ∧ segmentWidth 240 61 59 = 6 ∧ ¬((6 : ℚ) ≤ 4) := by
  refine ⟨?_, ?_, by norm_num⟩
  · simp only [segmentWidth, segmentX, xScaleLin, MIN_SEGMENT_WIDTH]
    rw [min_def, max_def]
    norm_num
  · simp only [segmentWidth, segmentX, xScaleLin, MIN_SEGMENT_WIDTH]
    rw [min_def, max_def]
    norm_num

/-- C7 (amended): the pre-clip segment width
`max(barWidth / chunkCount, MIN_SEGMENT_WIDTH)` is monotonically
non-increasing in `chunkCount`, and the rendered width never exceeds it; the
final clip to the remaining row width `barWidth - x`, however, can grow with
`chunkCount` (see the counterexample), so the clipped width itself is not
monotone. -/
theorem segment_width_unclipped_monotone (barWidth n m i : ℚ)
    (hW : 0 ≤ barWidth) (hn : 0 < n) (hnm : n ≤ m) :
    max (barWidth / m) MIN_SEGMENT_WIDTH ≤ max (barWidth / n) MIN_SEGMENT_WIDTH ∧
    segmentWidth barWidth n i ≤ max (barWidth / n) MIN_SEGMENT_WIDTH := by
  have hm : 0 < m := lt_of_lt_of_le hn hnm
  constructor
  · refine max_le_max ?_ le_rfl
    gcongr
  · have hxs : xScaleLin n barWidth (i + 1) - segmentX barWidth n i =
        barWidth / n := by
      simp only [xScaleLin, segmentX]
      field_simp
      ring
    rw [segmentWidth, hxs]
    exact min_le_left _ _

theorem segment_width_unclipped_monotone_witness :
    max ((240 : ℚ) / 120) MIN_SEGMENT_WIDTH ≤
      max ((240 : ℚ) / 60) MIN_SEGMENT_WIDTH ∧
    segmentWidth 240 60 0 ≤ max ((240 : ℚ) / 60) MIN_SEGMENT_WIDTH :=
  segment_width_unclipped_monotone 240 60 120 0 (by norm_num) (by norm_num)
    (by norm_num)

/-! ## Counting characterization of the aggregator (claims C1, C2, C4)

`cOcc`/`cFlags`/`cPoor` count, directly over the input list, the retrieval
occurrences of a chunk bucket and how many of them come from flagged / poor
points.  The fold invariant below shows the accumulator agrees with these
counts at every document title and chunk key. -/

/-- Whether a retrieved doc of a point resolves to document bucket `t` and
chunk bucket `k`. -/
def docMatches (t k : String) (d : RetrievedDoc) : Bool :=
  (docTitleOrUntitled d == t) && (chunkKeyOf d == k)

/-- Retrieval occurrences of chunk `(t, k)` across all points. -/
def cOcc (pts : List VizDataPoint) (t k : String) : ℕ :=
  (pts.map (fun p => p.retrievedDocs.countP (docMatches t k))).sum

/-- Retrieval occurrences of chunk `(t, k)` contributed by flagged points. -/
def cFlags (pts : List VizDataPoint) (t k : String) : ℕ :=
  (pts.map (fun p =>
    if pointFlagged p then p.retrievedDocs.countP (docMatches t k) else 0)).sum

/-- Retrieval occurrences of chunk `(t, k)` contributed by poor points. -/
def cPoor (pts : List VizDataPoint) (t k : String) : ℕ :=
  (pts.map (fun p =>
    if pointPoorLLM p then p.retrievedDocs.countP (docMatches t k) else 0)).sum

/-- The chunk accumulator stored in the doc map at `(t, k)`, if any. -/
def lookupChunk (m : List (String × DocEntry)) (t k : String) :
    Option ChunkAggregateInternal :=
  (mapGet m t).bind (fun e => mapGet e.chunkMap k)

/-- Accumulated occurrence count at `(t, k)` (zero when absent). -/
def occAt (m : List (String × DocEntry)) (t k : String) : ℕ :=
  ((lookupChunk m t k).map (fun c => c.occurrences)).getD 0

/-- Accumulated flag count at `(t, k)` (zero when absent). -/
def flagsAt (m : List (String × DocEntry)) (t k : String) : ℕ :=
  ((lookupChunk m t k).map (fun c => c.flags)).getD 0

/-- Accumulated poor count at `(t, k)` (zero when absent). -/
def poorAt (m : List (String × DocEntry)) (t k : String) : ℕ :=
  ((lookupChunk m t k).map (fun c => c.poor)).getD 0

theorem statsAt_processDoc (fl po : Bool) (q r : String)
    (m : List (String × DocEntry)) (d : RetrievedDoc) (t k : String) :
    occAt (processDoc fl po q r m d) t k =
      occAt m t k + (if docMatches t k d then 1 else 0) ∧
    flagsAt (processDoc fl po q r m d) t k =
      flagsAt m t k + (if fl && docMatches t k d then 1 else 0) ∧
    poorAt (processDoc fl po q r m d) t k =
      poorAt m t k + (if po && docMatches t k d then 1 else 0) := by
  by_cases ht : t = docTitleOrUntitled d
  · by_cases hk : k = chunkKeyOf d
    · have hdm : docMatches t k d = true := by
        simp [docMatches, ht, hk]
      subst ht hk
      simp only [occAt, flagsAt, poorAt, lookupChunk, processDoc,
        mapGet_mapSet_self, Option.some_bind, hdm, Bool.and_true, if_true]
      cases hget : mapGet m (docTitleOrUntitled d) with
      | none =>
        simp only [hget, Option.getD_none, Option.bind_none, freshDocEntry,
          mapGet_nil, mapGet_mapSet_self, Option.map_some, Option.getD_some,
          Option.map_none, Option.getD_none]
        cases fl <;> cases po <;> simp [freshChunk]
      | some e =>
        simp only [hget, Option.getD_some, Option.some_bind, mapGet_mapSet_self,
          Option.map_some, Option.getD_some]
        cases hcget : mapGet e.chunkMap (chunkKeyOf d) with
        | none =>
          simp only [hcget, Option.getD_none, Option.map_none,
            Option.map_some, Option.getD_some]
          cases fl <;> cases po <;> simp [freshChunk]
        | some c =>
          simp only [hcget, Option.getD_some, Option.map_some]
          cases fl <;> cases po <;> simp
    · have hdm : docMatches t k d = false := by
        have hb : (chunkKeyOf d == k) = false :=
          beq_eq_false_iff_ne.mpr (fun h => hk h.symm)
        simp [docMatches, hb]
      subst ht
      simp only [occAt, flagsAt, poorAt, lookupChunk, processDoc,
        mapGet_mapSet_self, Option.some_bind, hdm, Bool.and_false, if_false,
        Bool.false_eq_true, add_zero]
      rw [mapGet_mapSet_ne _ _ _ _ hk]
      cases hget : mapGet m (docTitleOrUntitled d) with
      | none =>
        simp [hget, freshDocEntry, mapGet_nil]
      | some e =>
        simp [hget]
  · have hdm : docMatches t k d = false := by
      have hb : (docTitleOrUntitled d == t) = false :=
        beq_eq_false_iff_ne.mpr (fun h => ht h.symm)
      simp [docMatches, hb]
    simp only [occAt, flagsAt, poorAt, lookupChunk, processDoc, hdm,
      Bool.and_false, if_false, Bool.false_eq_true, add_zero]
    rw [mapGet_mapSet_ne _ _ _ _ ht]
    exact ⟨rfl, rfl, rfl⟩

theorem statsAt_foldl_docs (fl po : Bool) (q r : String)
    (docs : List RetrievedDoc) :
    ∀ (m : List (String × DocEntry)) (t k : String),
      occAt (docs.foldl (processDoc fl po q r) m) t k =
        occAt m t k + docs.countP (docMatches t k) ∧
      flagsAt (docs.foldl (processDoc fl po q r) m) t k =
        flagsAt m t k + (if fl then docs.countP (docMatches t k) else 0) ∧
      poorAt (docs.foldl (processDoc fl po q r) m) t k =
        poorAt m t k + (if po then docs.countP (docMatches t k) else 0) := by
  induction docs with
  | nil =>
    intro m t k
    simp
  | cons d ds ih =>
    intro m t k
    rw [List.foldl_cons]
    obtain ⟨h1, h2, h3⟩ := ih (processDoc fl po q r m d) t k
    obtain ⟨g1, g2, g3⟩ := statsAt_processDoc fl po q r m d t k
    rw [h1, g1, h2, g2, h3, g3, List.countP_cons]
    refine ⟨by omega, ?_, ?_⟩ <;>
      cases fl <;> cases po <;> cases hdm : docMatches t k d <;> simp <;> omega

theorem statsAt_processPoint (m : List (String × DocEntry)) (p : VizDataPoint)
    (t k : String) :
    occAt (processPoint m p) t k =
      occAt m t k + p.retrievedDocs.countP (docMatches t k) ∧
    flagsAt (processPoint m p) t k =
      flagsAt m t k +
        (if pointFlagged p then p.retrievedDocs.countP (docMatches t k) else 0) ∧
    poorAt (processPoint m p) t k =
      poorAt m t k +
        (if pointPoorLLM p then p.retrievedDocs.countP (docMatches t k) else 0) :=
  statsAt_foldl_docs (pointFlagged p) (pointPoorLLM p) p.questionId p.runId
    p.retrievedDocs m t k

theorem statsAt_buildDocMap (pts : List VizDataPoint) (t k : String) :
    occAt (buildDocMap pts) t k = cOcc pts t k ∧
    flagsAt (buildDocMap pts) t k = cFlags pts t k ∧
    poorAt (buildDocMap pts) t k = cPoor pts t k := by
  suffices h : ∀ (m : List (String × DocEntry)),
      occAt (pts.foldl processPoint m) t k = occAt m t k + cOcc pts t k ∧
      flagsAt (pts.foldl processPoint m) t k = flagsAt m t k + cFlags pts t k ∧
      poorAt (pts.foldl processPoint m) t k = poorAt m t k + cPoor pts t k by
    have h0 := h []
    simpa [buildDocMap, occAt, flagsAt, poorAt, lookupChunk, mapGet_nil] using h0
  induction pts with
  | nil =>
    intro m
    simp [cOcc, cFlags, cPoor]
  | cons p ps ih =>
    intro m
    rw [List.foldl_cons]
    obtain ⟨h1, h2, h3⟩ := ih (processPoint m p)
    obtain ⟨g1, g2, g3⟩ := statsAt_processPoint m p t k
    rw [h1, g1, h2, g2, h3, g3]
    simp only [cOcc, cFlags, cPoor, List.map_cons, List.sum_cons]
    omega

/-- Well-formedness of the accumulated doc map: keys are duplicate-free at
both levels, each entry's `title` equals its map key and each chunk's `key`
equals its map key. -/
def WFMap (m : List (String × DocEntry)) : Prop :=
  (m.map Prod.fst).Nodup ∧
  ∀ te ∈ m, te.2.title = te.1 ∧ (te.2.chunkMap.map Prod.fst).Nodup ∧
    ∀ kc ∈ te.2.chunkMap, kc.2.key = kc.1

theorem keys_map_replace {α : Type} (es : List (String × α)) (k : String)
    (v : α) :
    (es.map (fun e => if e.1 == k then (k, v) else e)).map Prod.fst =
      es.map Prod.fst := by
  rw [List.map_map]
  apply List.map_congr_left
  intro e _
  by_cases h : (e.1 == k) = true
  · have h' : e.1 = k := by simpa using h
    simp [Function.comp, h, h']
  · simp [Function.comp, h]

theorem keys_mapSet_mem {α : Type} {m : List (String × α)} {k a : String}
    {v : α} (h : a ∈ (mapSet m k v).map Prod.fst) :
    a ∈ m.map Prod.fst ∨ a = k := by
  rcases List.mem_map.mp h with ⟨x, hx, hxa⟩
  rcases mem_mapSet hx with h1 | h1
  · right
    rw [← hxa, h1]
  · left
    exact List.mem_map.mpr ⟨x, h1, hxa⟩

theorem keys_mapSet_nodup {α : Type} {m : List (String × α)} (k : String)
    (v : α) (h : (m.map Prod.fst).Nodup) :
    ((mapSet m k v).map Prod.fst).Nodup := by
  induction m with
  | nil => simp [mapSet_nil]
  | cons e es ih =>
    rw [mapSet_cons]
    rw [List.map_cons, List.nodup_cons] at h
    obtain ⟨hne, hnd⟩ := h
    by_cases he : (e.1 == k) = true
    · have he' : e.1 = k := by simpa using he
      rw [if_pos he, List.map_cons, keys_map_replace]
      rw [List.nodup_cons]
      exact ⟨he' ▸ hne, hnd⟩
    · rw [if_neg (by simp [he]), List.map_cons, List.nodup_cons]
      refine ⟨?_, ih hnd⟩
      intro hmem
      rcases keys_mapSet_mem hmem with h1 | h1
      · exact hne h1
      · exact absurd (beq_iff_eq.mpr h1) (by simp [he])

theorem mapGet_eq_some_of_mem {α : Type} {m : List (String × α)} {k : String}
    {v : α} (hnd : (m.map Prod.fst).Nodup) (h : (k, v) ∈ m) :
    mapGet m k = some v := by
  induction m with
  | nil => simp at h
  | cons e es ih =>
    rw [List.map_cons, List.nodup_cons] at hnd
    obtain ⟨hne, hnd'⟩ := hnd
    rw [mapGet_cons]
    rcases List.mem_cons.mp h with h1 | h1
    · rw [← h1]
      simp
    · have hek : (e.1 == k) = false := by
        refine beq_eq_false_iff_ne.mpr ?_
        intro hek
        exact hne (hek ▸ List.mem_map.mpr ⟨(k, v), h1, rfl⟩)
      rw [if_neg (by simp [hek])]
      exact ih hnd' h1

theorem WFMap_processDoc (fl po : Bool) (q r : String)
    (m : List (String × DocEntry)) (d : RetrievedDoc) (h : WFMap m) :
    WFMap (processDoc fl po q r m d) := by
  obtain ⟨hnd, hent⟩ := h
  have hde :
      ((mapGet m (docTitleOrUntitled d)).getD
        (freshDocEntry (docTitleOrUntitled d))).title = docTitleOrUntitled d ∧
      ((((mapGet m (docTitleOrUntitled d)).getD
        (freshDocEntry (docTitleOrUntitled d))).chunkMap.map Prod.fst).Nodup) ∧
      ∀ kc ∈ ((mapGet m (docTitleOrUntitled d)).getD
        (freshDocEntry (docTitleOrUntitled d))).chunkMap, kc.2.key = kc.1 := by
    cases hget : mapGet m (docTitleOrUntitled d) with
    | none => simp [freshDocEntry]
    | some e =>
      have := hent (docTitleOrUntitled d, e) (mem_of_mapGet_eq_some hget)
      simpa using this
  obtain ⟨hdt, hdnd, hdkeys⟩ := hde
  have hc0 :
      (((mapGet m (docTitleOrUntitled d)).getD
        (freshDocEntry (docTitleOrUntitled d))).chunkMap.map Prod.fst).Nodup →
      ((mapGet ((mapGet m (docTitleOrUntitled d)).getD
          (freshDocEntry (docTitleOrUntitled d))).chunkMap (chunkKeyOf d)).getD
        (freshChunk (chunkKeyOf d) (chunkIndexOrZero d) d)).key = chunkKeyOf d := by
    intro _
    cases hcget : mapGet ((mapGet m (docTitleOrUntitled d)).getD
        (freshDocEntry (docTitleOrUntitled d))).chunkMap (chunkKeyOf d) with
    | none => simp [freshChunk]
    | some c =>
      have := hdkeys (chunkKeyOf d, c) (mem_of_mapGet_eq_some hcget)
      simpa using this
  constructor
  · simp only [processDoc]
    exact keys_mapSet_nodup _ _ hnd
  · intro te hte
    simp only [processDoc] at hte
    rcases mem_mapSet hte with h1 | h1
    · subst h1
      refine ⟨hdt, keys_mapSet_nodup _ _ hdnd, ?_⟩
      intro kc hkc
      rcases mem_mapSet hkc with h2 | h2
      · subst h2
        exact hc0 hdnd
      · exact hdkeys kc h2
    · exact hent te h1

theorem WFMap_foldl_docs (fl po : Bool) (q r : String)
    (docs : List RetrievedDoc) :
    ∀ (m : List (String × DocEntry)), WFMap m →
      WFMap (docs.foldl (processDoc fl po q r) m) := by
  induction docs with
  | nil => intro m h; exact h
  | cons d ds ih =>
    intro m h
    rw [List.foldl_cons]
    exact ih _ (WFMap_processDoc fl po q r m d h)

theorem WFMap_buildDocMap (pts : List VizDataPoint) :
    WFMap (buildDocMap pts) := by
  suffices h : ∀ (m : List (String × DocEntry)), WFMap m →
      WFMap (pts.foldl processPoint m) by
    exact h [] ⟨by simp, by simp⟩
  induction pts with
  | nil => intro m h; exact h
  | cons p ps ih =>
    intro m h
    rw [List.foldl_cons]
    exact ih _ (WFMap_foldl_docs _ _ _ _ _ m h)

/-- Master characterization: every chunk aggregate published by
`fingerprints` reports exactly the occurrence / flagged-occurrence /
poor-occurrence counts of its `(document title, chunk key)` bucket over the
input list, and its severity is computed from its own `flags`/`poor` with the
supplied weight. -/
theorem fingerprints_chunk_stats (pts : List VizDataPoint) (W : ℚ)
    (sb : SortKey) (doc : DocumentFingerprint) (c : ChunkAggregate)
    (hd : doc ∈ fingerprints pts W sb) (hc : c ∈ doc.chunks) :
    c.occurrences = cOcc pts doc.title c.key ∧
    c.flags = cFlags pts doc.title c.key ∧
    c.poor = cPoor pts doc.title c.key ∧
    c.severity = qAdd (qMul (qOfNat c.flags) W) (qOfNat c.poor) := by
  obtain ⟨hnd, hent⟩ := WFMap_buildDocMap pts
  rw [fingerprints, finalizeAll, mem_jsSortBy] at hd
  rcases List.mem_map.mp hd with ⟨e, he, hde⟩
  rcases List.mem_map.mp he with ⟨te, hte, rfl⟩
  subst hde
  simp only [finalizeDoc] at hc
  rw [mem_jsSortBy] at hc
  rcases List.mem_map.mp hc with ⟨ci, hci, hcic⟩
  rcases List.mem_map.mp hci with ⟨kc, hkc, rfl⟩
  obtain ⟨htitle, hcnodup, hkeys⟩ := hent te hte
  have hkck : kc.2.key = kc.1 := hkeys kc hkc
  have hget : mapGet (buildDocMap pts) te.1 = some te.2 := by
    apply mapGet_eq_some_of_mem hnd
    simpa using hte
  have hcget : mapGet te.2.chunkMap kc.1 = some kc.2 := by
    apply mapGet_eq_some_of_mem hcnodup
    simpa using hkc
  obtain ⟨ho, hf, hp⟩ := statsAt_buildDocMap pts te.1 kc.1
  rw [occAt, lookupChunk, hget, Option.some_bind, hcget] at ho
  rw [flagsAt, lookupChunk, hget, Option.some_bind, hcget] at hf
  rw [poorAt, lookupChunk, hget, Option.some_bind, hcget] at hp
  simp only [Option.map_some', Option.getD_some] at ho hf hp
  subst hcic
  simp only [finalizeDoc, toChunkAggregate, htitle, hkck]
  exact ⟨ho, hf, hp, trivial⟩

/-- Per-point mutual exclusivity: `flagged` and `poorLLM` are never both
true, since `poorLLM` conjoins `!flagged`. -/
theorem pointFlagged_pointPoorLLM_exclusive (p : VizDataPoint) :
    ¬(pointFlagged p = true ∧ pointPoorLLM p = true) := by
  rintro ⟨h1, h2⟩
  rw [pointPoorLLM, h1] at h2
  simp at h2

theorem cFlags_add_cPoor_le_cOcc (pts : List VizDataPoint) (t k : String) :
    cFlags pts t k + cPoor pts t k ≤ cOcc pts t k := by
  induction pts with
  | nil => simp [cFlags, cPoor, cOcc]
  | cons p ps ih =>
    simp only [cFlags, cPoor, cOcc, List.map_cons, List.sum_cons] at ih ⊢
    have hex := pointFlagged_pointPoorLLM_exclusive p
    cases hf : pointFlagged p <;> cases hp : pointPoorLLM p <;> simp_all <;> omega

/-! ## Concrete inputs for the aggregator claims -/

/-- Spec scenario 2 (claim C1): two points, both retrieving
`{title:"Lab3", index:2}`; the first is flagged, the second has
`llmScore = 0.1`. -/
def c1pts : List VizDataPoint :=
  [ { runId := "r1", questionId := "q1", llmScore := mkRat 9 10,
      humanFlags := 1,
      retrievedDocs := [{ title := "Lab3", score := mkRat 4 5, index := some 2 }] },
    { runId := "r2", questionId := "q2", llmScore := mkRat 1 10,
      humanFlags := 0,
      retrievedDocs := [{ title := "Lab3", score := mkRat 4 5, index := some 2 }] } ]

/-- Claim C2's counterexample input: a single flagged run whose
`retrievedDocs` lists the same `(title, index, chunkId)` chunk twice. -/
def c2pts : List VizDataPoint :=
  [ { runId := "r1", questionId := "q1", llmScore := mkRat 9 10,
      humanFlags := 1,
      retrievedDocs :=
        [ { title := "DocA", score := mkRat 1 2, index := some 0 },
          { title := "DocA", score := mkRat 1 2, index := some 0 } ] } ]

/-- Claim C10's input: one question (`q1`) with a flagged run and a distinct
non-flagged poor run, both retrieving chunks of document `DocB`. -/
def c10pts : List VizDataPoint :=
  [ { runId := "r1", questionId := "q1", llmScore := mkRat 9 10,
      humanFlags := 1,
      retrievedDocs := [{ title := "DocB", score := mkRat 1 2, index := some 0 }] },
    { runId := "r2", questionId := "q1", llmScore := mkRat 3 10,
      humanFlags := 0,
      retrievedDocs := [{ title := "DocB", score := mkRat 1 2, index := some 1 }] } ]

/-- Spec scenario 1: a single clean point retrieving one `Syllabus` chunk. -/
def wpts : List VizDataPoint :=
  [{ runId := "r1", questionId := "q1", llmScore := mkRat 9 10,
     avgSimilarity := mkRat 4 5, humanFlags := 0,
     retrievedDocs := [{ title := "Syllabus", score := mkRat 4 5, index := some 0 }] }]

/-- The fingerprint `fingerprints wpts 10 .severity` produces. -/
def wdoc : DocumentFingerprint :=
  { title := "Syllabus", severity := 0, humanFlags := 0, poorLLM := 0,
    totalRetrievals := 1, chunkCount := 1,
    chunks := [{ key := "Syllabus-0-", index := 0, text := "", chunkId := none,
                 occurrences := 1, flags := 0, poor := 0, questions := 1,
                 runs := 1, severity := 0, runIds := ["r1"] }] }

/-- The chunk aggregate inside `wdoc`. -/
def wchunk : ChunkAggregate :=
  { key := "Syllabus-0-", index := 0, text := "", chunkId := none,
    occurrences := 1, flags := 0, poor := 0, questions := 1, runs := 1,
    severity := 0, runIds := ["r1"] }

/-- A single poor (non-flagged) point retrieving one `Notes` chunk. -/
def c4pts : List VizDataPoint :=
  [{ runId := "r1", questionId := "q1", llmScore := mkRat 1 10, humanFlags := 0,
     retrievedDocs := [{ title := "Notes", score := mkRat 1 2, index := some 3 }] }]

/-- The fingerprint `fingerprints c4pts 10 .severity` produces. -/
def c4doc : DocumentFingerprint :=
  { title := "Notes", severity := 1, humanFlags := 0, poorLLM := 1,
    totalRetrievals := 1, chunkCount := 4,
    chunks := [{ key := "Notes-3-", index := 3, text := "", chunkId := none,
                 occurrences := 1, flags := 0, poor := 1, questions := 1,
                 runs := 1, severity := 1, runIds := ["r1"] }] }

/-- The chunk aggregate inside `c4doc`. -/
def c4chunk : ChunkAggregate :=
  { key := "Notes-3-", index := 3, text := "", chunkId := none,
    occurrences := 1, flags := 0, poor := 1, questions := 1, runs := 1,
    severity := 1, runIds := ["r1"] }

/-- C1: every published chunk's severity equals
`flags * severityWeight + poor`, and on the two-point `Lab3` input with
weight `10` the chunk aggregate has `flags = 1`, `poor = 1` and
`severity = 11` (the two runs are distinct, so the poor run counts
independently of the flagged one). -/
theorem fingerprint_chunk_severity :
    (∀ (pts : List VizDataPoint) (W : ℚ) (sb : SortKey)
      (doc : DocumentFingerprint) (c : ChunkAggregate),
      doc ∈ fingerprints pts W sb → c ∈ doc.chunks →
      c.severity = (c.flags : ℚ) * W + c.poor) ∧
    ((((fingerprints c1pts 10 .severity).find?
        (fun doc => doc.title == "Lab3")).bind
        (fun doc => doc.chunks.find? (fun c => c.key == "Lab3-2-"))).map
        (fun c => (c.flags, c.poor, c.severity)) = some (1, 1, 11)) := by
  constructor
  · intro pts W sb doc c hd hc
    have h := (fingerprints_chunk_stats pts W sb doc c hd hc).2.2.2
    rw [h, qAdd_eq, qMul_eq, qOfNat_eq, qOfNat_eq]
  · decide

theorem fingerprint_chunk_severity_witness :
    wdoc ∈ fingerprints wpts 10 .severity ∧ wchunk ∈ wdoc.chunks ∧
    wchunk.severity = (wchunk.flags : ℚ) * 10 + wchunk.poor :=
  ⟨by decide, by decide,
   fingerprint_chunk_severity.1 wpts 10 .severity wdoc wchunk (by decide)
     (by decide)⟩

/-- C2 (counterexample): `flags` is NOT the number of distinct flagged runs
that retrieved the chunk: on `c2pts` — one flagged run listing the same chunk
twice — the published chunk has `flags = 2` while only `1` distinct run
(hence `1` distinct flagged run) retrieved it. -/
theorem chunk_flags_not_distinct_runs_cx :
    ((((fingerprints c2pts 10 .severity).find?
        (fun doc => doc.title == "DocA")).bind
        (fun doc => doc.chunks.find? (fun c => c.key == "DocA-0-"))).map
        (fun c => (c.flags, c.runs)) = some (2, 1)) ∧ (2 : ℕ) ≠ 1 :=
  ⟨by decide, by decide⟩

/-- C2 (amended): for every chunk aggregate in the output, `flags` equals the
number of retrieval occurrences — `(point, retrievedDoc)` pairs resolving to
this chunk's bucket — contributed by flagged runs, and `poor` the analogous
count for poor runs; these coincide with distinct-run counts only when no
run's `retrievedDocs` lists the same chunk more than once. -/
theorem chunk_flags_poor_count_occurrences (pts : List VizDataPoint) (W : ℚ)
    (sb : SortKey) (doc : DocumentFingerprint) (c : ChunkAggregate)
    (hd : doc ∈ fingerprints pts W sb) (hc : c ∈ doc.chunks) :
    c.flags = cFlags pts doc.title c.key ∧
    c.poor = cPoor pts doc.title c.key :=
  ⟨(fingerprints_chunk_stats pts W sb doc c hd hc).2.1,
   (fingerprints_chunk_stats pts W sb doc c hd hc).2.2.1⟩

theorem chunk_flags_poor_count_occurrences_witness :
    c4doc ∈ fingerprints c4pts 10 .severity ∧ c4chunk ∈ c4doc.chunks ∧
    (c4chunk.flags = cFlags c4pts c4doc.title c4chunk.key ∧
     c4chunk.poor = cPoor c4pts c4doc.title c4chunk.key) :=
  ⟨by decide, by decide,
   chunk_flags_poor_count_occurrences c4pts 10 .severity c4doc c4chunk
     (by decide) (by decide)⟩

/-- The fingerprint `fingerprints c1pts 10 .severity` produces. -/
def c1doc : DocumentFingerprint :=
  { title := "Lab3", severity := 11, humanFlags := 1, poorLLM := 1,
    totalRetrievals := 2, chunkCount := 3,
    chunks := [{ key := "Lab3-2-", index := 2, text := "", chunkId := none,
                 occurrences := 2, flags := 1, poor := 1, questions := 2,
                 runs := 2, severity := 11, runIds := ["r1", "r2"] }] }

/-- The chunk aggregate inside `c1doc`. -/
def c1chunk : ChunkAggregate :=
  { key := "Lab3-2-", index := 2, text := "", chunkId := none,
    occurrences := 2, flags := 1, poor := 1, questions := 2, runs := 2,
    severity := 11, runIds := ["r1", "r2"] }

/-- C4: for every point the derived `flagged` and `poorLLM` booleans are
never both true, and for every published chunk aggregate
`flags + poor <= occurrences`. -/
theorem fingerprint_mutual_exclusivity :
    (∀ p : VizDataPoint, ¬(pointFlagged p = true ∧ pointPoorLLM p = true)) ∧
    (∀ (pts : List VizDataPoint) (W : ℚ) (sb : SortKey)
      (doc : DocumentFingerprint) (c : ChunkAggregate),
      doc ∈ fingerprints pts W sb → c ∈ doc.chunks →
      c.flags + c.poor ≤ c.occurrences) := by
  constructor
  · exact pointFlagged_pointPoorLLM_exclusive
  · intro pts W sb doc c hd hc
    obtain ⟨ho, hf, hp, _⟩ := fingerprints_chunk_stats pts W sb doc c hd hc
    rw [ho, hf, hp]
    exact cFlags_add_cPoor_le_cOcc pts doc.title c.key

theorem fingerprint_mutual_exclusivity_witness :
    c1doc ∈ fingerprints c1pts 10 .severity ∧ c1chunk ∈ c1doc.chunks ∧
    c1chunk.flags + c1chunk.poor ≤ c1chunk.occurrences :=
  ⟨by decide, by decide,
   fingerprint_mutual_exclusivity.2 c1pts 10 .severity c1doc c1chunk
     (by decide) (by decide)⟩

/-- C10: document-level flag/poor counting applies mutual exclusivity per
run, not per question: on `c10pts`, the single question `q1` — which has one
flagged run and a different non-flagged run with `llmScore < 0.4`, both
hitting `DocB` — is counted in BOTH the document's `humanFlags` and its
`poorLLM`, so with weight `10` it contributes `10 + 1 = 11` to the
document's severity. -/
theorem document_counts_per_run_exclusive :
    ((fingerprints c10pts 10 .severity).find?
      (fun doc => doc.title == "DocB")).map
      (fun doc => (doc.humanFlags, doc.poorLLM, doc.severity))
      = some (1, 1, 11) := by decide

/-! ## Runtime behavior on points with absent fields (claim C9) -/

/-- A raw point whose `retrievedDocs` is absent (`undefined`). -/
def rawNoDocs : RawVizPoint :=
  { runId := "r1", questionId := "q1", llmScore := some 1, humanFlags := some 0,
    retrievedDocs := none }

/-- A raw point whose `llmScore` is absent but whose `retrievedDocs` is
present. -/
def rawNoScore : RawVizPoint :=
  { runId := "r2", questionId := "q2", llmScore := none, humanFlags := some 0,
    retrievedDocs := some [{ title := "DocC", score := mkRat 1 2, index := some 0 }] }

/-- `rawNoScore` with its missing `llmScore` coerced to `0` (what the claim
says should be equivalent). -/
def rawNoScoreCoerced : VizDataPoint :=
  { runId := "r2", questionId := "q2", llmScore := 0, humanFlags := 0,
    retrievedDocs := [{ title := "DocC", score := mkRat 1 2, index := some 0 }] }

/-- C9 (counterexample): the aggregation does NOT defensively coerce all
absent fields.  A point with absent `retrievedDocs` makes the aggregation
fail with a `TypeError` instead of being treated as an empty array, and a
point with absent `llmScore` is counted as not-poor (`poor = 0`), whereas
coercing the missing `llmScore` to `0` would count it poor (`poor = 1`). -/
theorem raw_aggregation_missing_fields_cx :
    rawFingerprints [rawNoDocs] 10 .severity =
      .error "TypeError: point.retrievedDocs is undefined" ∧
    (rawFingerprints [rawNoScore] 10 .severity).map
      (fun fps => fps.map (fun doc => doc.chunks.map (fun c => c.poor))) =
      .ok [[0]] ∧
    (fingerprints [rawNoScoreCoerced] 10 .severity).map
      (fun doc => doc.chunks.map (fun c => c.poor)) = [[1]] :=
  ⟨rfl, rfl, by decide⟩

/-- C9 (amended): the aggregation coerces absent doc-level fields
(`title -> "Untitled"`, `index -> 0`, `chunkId -> ""`) and treats an absent
`humanFlags` like `0`, but it does not coerce an absent `retrievedDocs` or
`llmScore`: it completes without error exactly when every point supplies a
`retrievedDocs` array (a point lacking it throws), and an absent `llmScore`
behaves as a passing score — never counted poor — rather than as `0`. -/
theorem raw_aggregation_ok_iff_docs_present (pts : List RawVizPoint) (W : ℚ)
    (sb : SortKey) :
    (rawFingerprints pts W sb).isOk = true ↔
      ∀ p ∈ pts, p.retrievedDocs.isSome = true := by
  rw [rawFingerprints]
  have hmap : ∀ (x : Except String (List (String × DocEntry))),
      (x.map (finalizeAll W sb)).isOk = x.isOk := by
    intro x
    cases x <;> rfl
  rw [hmap]
  suffices h : ∀ (m : List (String × DocEntry)),
      ((pts.foldlM processRawPoint m : Except String _)).isOk = true ↔
        ∀ p ∈ pts, p.retrievedDocs.isSome = true from h []
  induction pts with
  | nil =>
    intro m
    simp [List.foldlM_nil, Except.isOk, Except.toBool, pure, Except.pure]
  | cons p ps ih =>
    intro m
    rw [List.foldlM_cons]
    cases hrd : p.retrievedDocs with
    | none =>
      have herr : ((Except.error "TypeError: point.retrievedDocs is undefined"
          : Except String (List (String × DocEntry))) >>=
          (fun m' => ps.foldlM processRawPoint m')) =
          Except.error "TypeError: point.retrievedDocs is undefined" := rfl
      simp only [processRawPoint, hrd]
      rw [herr]
      constructor
      · intro h
        simp [Except.isOk, Except.toBool] at h
      · intro h
        have hp := h p (List.mem_cons_self _ _)
        rw [hrd] at hp
        simp at hp
    | some docs =>
      simp only [processRawPoint, hrd]
      have hbind :
          ((Except.ok (docs.foldl
              (processDoc (rawFlagged p) (rawPoorLLM p) p.questionId p.runId) m)
            : Except String (List (String × DocEntry))) >>=
            (fun m' => ps.foldlM processRawPoint m')) =
          ps.foldlM processRawPoint
            (docs.foldl
              (processDoc (rawFlagged p) (rawPoorLLM p) p.questionId p.runId) m) :=
        rfl
      rw [hbind, ih]
      simp [hrd]

theorem raw_aggregation_ok_iff_docs_present_witness :
    (rawFingerprints [rawNoScore] 10 .severity).isOk = true :=
  (raw_aggregation_ok_iff_docs_present [rawNoScore] 10 .severity).mpr (by decide)
